import Mathlib

/-!
# Verification of the BattleshipGame match engine and scoreboard data model

Shallow embedding of `src/BattleshipGame/GameManager.cpp`, `GameManager.h`
and `Scoreboard.h`.  The board, the player strategies and the visualizer are
external collaborators (their headers are not part of the repository), so
they are modelled at their interface boundary:

* the board is a value of an abstract type `β` together with a
  `BattleBoard` record of the three operations `GameManager` uses
  (`getPlayerAShipCount`, `getPlayerBShipCount`, `executeAttack`);
* a player strategy is a stream `Nat → Int × Int` giving the value returned
  by its n-th `attack()` call (a pair of 1-based coordinates, or the
  forfeit sentinel);
* calls made to the players and to the visualizer are recorded as `Event`s
  so that notification and visualization behaviour can be stated.

Machine integers are modelled as `Int` (no arithmetic here approaches the
32-bit range) and the `float rating` field as `Rat` (the code only compares
ratings with `<`, it never computes with them).
-/

namespace Battleship

/-- The two players, `PlayerEnum` in the source. -/
inductive PlayerEnum
  | A
  | B
deriving DecidableEq, Repr

/-- Outcome of a resolved attack, `AttackResult` in the source. -/
inductive AttackResult
  | Miss
  | Hit
  | Sink
deriving DecidableEq, Repr

/-- `GameManager.h`: special attack coordinate returned when the player
chooses not to attack but to forfeit the game. -/
def FOREFEIT_COORDINATES : Int := -1

/-- Modelled from the spec: the reserved forfeit sentinel value compared
against `attack()` results in `startGame` (`target == FORFEIT`).  The
sentinel itself is declared in `IBattleshipGameAlgo.h`, which is not in the
repository; `GameManager.h` fixes its coordinate value as
`FOREFEIT_COORDINATES = -1`. -/
def FORFEIT : Int × Int := (FOREFEIT_COORDINATES, FOREFEIT_COORDINATES)

/-- Interface of the external `BattleBoard` collaborator, over an abstract
board-state type `β`: per-player remaining-ship counts and the attack
execution operation.  `executeAttack` takes 0-based coordinates and returns
the updated board together with `none` (the C++ `NULL`: no piece at that
cell) or `some lifeLeft`, the attacked game piece's remaining life. -/
structure BattleBoard (β : Type) where
  getPlayerAShipCount : β → Int
  getPlayerBShipCount : β → Int
  executeAttack : β → Int × Int → β × Option Nat

/-- `GameManager::isPlayerShipsLeft` (GameManager.cpp lines 14-18):
`shipsCount = (player == A) ? board->getPlayerAShipCount() :
board->getPlayerBShipCount()`, then `shipsCount > 0`.  (In the source the
second call misses its parentheses — a syntactic slip; any compiling
reading calls the member function.) -/
def isPlayerShipsLeft {β : Type} (bm : BattleBoard β) (board : β)
    (player : PlayerEnum) : Bool :=
  let shipsCount : Int :=
    if player = PlayerEnum.A then bm.getPlayerAShipCount board
    else bm.getPlayerBShipCount board
  shipsCount > 0

/-- `GameManager::isGameOver` (GameManager.cpp lines 20-32). -/
def isGameOver {β : Type} (bm : BattleBoard β) (board : β)
    (isPlayerAForfeit isPlayerBForfeit : Bool) : Bool :=
  if (isPlayerAForfeit && isPlayerBForfeit)
      || (!isPlayerShipsLeft bm board PlayerEnum.A)
      || (!isPlayerShipsLeft bm board PlayerEnum.B) then
    true
  else
    false

/-- `GameManager::switchPlayerTurns` (GameManager.cpp lines 34-44).  The
C++ function receives the two player objects and a pointer to the current
one and decides by pointer equality with `playerA`; here the current player
is named directly. -/
def switchPlayerTurns (currPlayer : PlayerEnum)
    (isPlayerAForfeit isPlayerBForfeit : Bool) : PlayerEnum :=
  if currPlayer = PlayerEnum.A && !isPlayerBForfeit then PlayerEnum.B
  else if !isPlayerAForfeit then PlayerEnum.A
  else PlayerEnum.B

/-- Observable calls the match engine makes on its collaborators.
`attackCall` records which player's `attack()` is invoked, together with
the values of the two forfeit flags at the moment of the call;
`boardAttack` records the 0-based coordinates handed to
`board->executeAttack`. -/
inductive Event (β : Type)
  | setBoard (player : PlayerEnum)
  | attackCall (player : PlayerEnum) (isPlayerAForfeit isPlayerBForfeit : Bool)
  | boardAttack (row col : Int)
  | notifyOnAttackResult (receiver : PlayerEnum) (attackingPlayerNumber : Int)
      (row col : Int) (result : AttackResult)
  | visualizeAttackResults (row col : Int) (result : AttackResult)
  | visualizeEndGame (board : β) (isPlayerAForfeit isPlayerBForfeit : Bool)
deriving DecidableEq, Repr

/-- The local state of `GameManager::startGame`'s while-loop: the board,
the `currentPlayer` pointer and the two forfeit flags, plus a call counter
per player that indexes its attack stream. -/
structure GameState (β : Type) where
  board : β
  currentPlayer : PlayerEnum
  isPlayerAForfeit : Bool
  isPlayerBForfeit : Bool
  attackCallsA : Nat
  attackCallsB : Nat
deriving DecidableEq, Repr

/-- The value `currentPlayer->attack()` returns at state `s`: the current
player's strategy evaluated at that player's call counter. -/
def currentAttack {β : Type} (attackA attackB : Nat → Int × Int)
    (s : GameState β) : Int × Int :=
  match s.currentPlayer with
  | PlayerEnum.A => attackA s.attackCallsA
  | PlayerEnum.B => attackB s.attackCallsB

/-- Classification of `board->executeAttack`'s return value in `startGame`
(GameManager.cpp lines 86-99): `NULL` is a miss, a piece with
`_lifeLeft == 0` is a sink, any other piece is a hit. -/
def classifyAttack : Option Nat → AttackResult
  | none => AttackResult.Miss
  | some lifeLeft =>
    if lifeLeft = 0 then AttackResult.Sink else AttackResult.Hit

/-- The opponent of a player. -/
def otherPlayer : PlayerEnum → PlayerEnum
  | PlayerEnum.A => PlayerEnum.B
  | PlayerEnum.B => PlayerEnum.A

/-- The forfeit flag belonging to player `p` in state `s`. -/
def playerForfeitFlag {β : Type} (p : PlayerEnum) (s : GameState β) : Bool :=
  if p = PlayerEnum.A then s.isPlayerAForfeit else s.isPlayerBForfeit

/-- One iteration of the while-loop body of `GameManager::startGame`
(GameManager.cpp lines 57-104): ask the current player for a target; on the
forfeit sentinel set that player's flag and switch turns; otherwise
decrement both coordinates, execute the attack on the board, classify the
result (`NULL` ↦ miss and switch turns, life 0 ↦ sink, else hit), and
notify both players and the visualizer. -/
def runIteration {β : Type} (bm : BattleBoard β)
    (attackA attackB : Nat → Int × Int) (s : GameState β) :
    GameState β × List (Event β) :=
  let target : Int × Int := currentAttack attackA attackB s
  let s1 : GameState β :=
    match s.currentPlayer with
    | PlayerEnum.A => { s with attackCallsA := s.attackCallsA + 1 }
    | PlayerEnum.B => { s with attackCallsB := s.attackCallsB + 1 }
  let callEvent : Event β :=
    Event.attackCall s.currentPlayer s.isPlayerAForfeit s.isPlayerBForfeit
  if target = FORFEIT then
    -- Player chose not to attack - from now on this player forfeits the game
    let fA : Bool :=
      if s.currentPlayer = PlayerEnum.A then true else s.isPlayerAForfeit
    let fB : Bool :=
      if s.currentPlayer = PlayerEnum.A then s.isPlayerBForfeit else true
    ({ s1 with
        isPlayerAForfeit := fA
        isPlayerBForfeit := fB
        currentPlayer := switchPlayerTurns s.currentPlayer fA fB },
      [callEvent])
  else
    -- Normalize coordinates to 0~BOARD_SIZE-1
    let row : Int := target.1 - 1
    let col : Int := target.2 - 1
    let res := bm.executeAttack s.board (row, col)
    let attackingPlayerNumber : Int :=
      if s.currentPlayer = PlayerEnum.B then 1 else 0  -- A - 0, B - 1
    let attackResult : AttackResult := classifyAttack res.2
    let nextPlayer : PlayerEnum :=
      match res.2 with
      | none =>
        switchPlayerTurns s.currentPlayer s.isPlayerAForfeit s.isPlayerBForfeit
      | some _ => s.currentPlayer
    ({ s1 with board := res.1, currentPlayer := nextPlayer },
      [callEvent,
       Event.boardAttack row col,
       Event.notifyOnAttackResult PlayerEnum.A attackingPlayerNumber row col
         attackResult,
       Event.notifyOnAttackResult PlayerEnum.B attackingPlayerNumber row col
         attackResult,
       Event.visualizeAttackResults row col attackResult])

/-- The while-loop of `GameManager::startGame` followed by the final
`visualizeEndGame` call, with explicit fuel since the C++ loop need not
terminate.  Returns the final state, the event trace, and whether the loop
reached the game-over condition within the given fuel (`false` means the
fuel ran out mid-match; the trailing `visualizeEndGame` is only emitted in
the completed case, as in the source where it follows the loop). -/
def runLoop {β : Type} (bm : BattleBoard β)
    (attackA attackB : Nat → Int × Int) :
    Nat → GameState β → GameState β × List (Event β) × Bool
  | fuel, s =>
    if isGameOver bm s.board s.isPlayerAForfeit s.isPlayerBForfeit then
      (s, [Event.visualizeEndGame s.board s.isPlayerAForfeit
            s.isPlayerBForfeit], true)
    else
      match fuel with
      | 0 => (s, [], false)
      | fuel + 1 =>
        let step := runIteration bm attackA attackB s
        let rest := runLoop bm attackA attackB fuel step.1
        (rest.1, step.2 ++ rest.2.1, rest.2.2)

/-- The `GameManager` object state: its two private win counters
(GameManager.h lines 31-33). -/
structure GameManager where
  _playerAWins : Int
  _playerBWins : Int
deriving DecidableEq, Repr

/-- `GameManager::startGame` (GameManager.cpp lines 46-107): set the board
on both players, start with player A active and both forfeit flags clear,
run the match loop, and visualize the end of the game.  The manager object
is threaded through to state frame conditions on its fields. -/
def startGame {β : Type} (gm : GameManager) (bm : BattleBoard β) (board : β)
    (attackA attackB : Nat → Int × Int) (fuel : Nat) :
    GameManager × GameState β × List (Event β) × Bool :=
  let s0 : GameState β :=
    { board := board
      currentPlayer := PlayerEnum.A
      isPlayerAForfeit := false
      isPlayerBForfeit := false
      attackCallsA := 0
      attackCallsB := 0 }
  let r := runLoop bm attackA attackB fuel s0
  (gm, r.1, Event.setBoard PlayerEnum.A :: Event.setBoard PlayerEnum.B ::
    r.2.1, r.2.2)

/-- `PlayerStatistics` (Scoreboard.h lines 22-35): immutable per-player
statistics snapshot.  The C++ `float rating` is modelled as `Rat`; the code
under verification only ever compares ratings with `<`. -/
structure PlayerStatistics where
  playerName : String
  pointsFor : Int
  pointsAgainst : Int
  wins : Int
  loses : Int
  rating : Rat
deriving DecidableEq, Repr

/-- `PlayerStatisticsRatingSort::operator()` (Scoreboard.h lines 38-43):
the strict-weak-order comparator `a.rating < b.rating` used by the
`std::set` inside `RoundResults`. -/
def PlayerStatisticsRatingSort (a b : PlayerStatistics) : Bool :=
  a.rating < b.rating

/-- Two `PlayerStatistics` are equivalent for the `std::set` ordered by
`PlayerStatisticsRatingSort` when neither compares less than the other,
i.e. exactly when their ratings are equal. -/
def ratingEquiv (a b : PlayerStatistics) : Bool :=
  !PlayerStatisticsRatingSort a b && !PlayerStatisticsRatingSort b a

/-- Model of `std::set<PlayerStatistics, PlayerStatisticsRatingSort>`
insertion (C++ standard library semantics): the set is kept as a list
sorted by the comparator; inserting an element equivalent to one already
present (per `ratingEquiv`) leaves the set unchanged. -/
def setInsert (x : PlayerStatistics) :
    List PlayerStatistics → List PlayerStatistics
  | [] => [x]
  | y :: l =>
    if PlayerStatisticsRatingSort x y then x :: y :: l
    else if PlayerStatisticsRatingSort y x then y :: setInsert x l
    else y :: l

/-- `RoundResults` (Scoreboard.h lines 45-51): a round number and a
`std::set<PlayerStatistics, PlayerStatisticsRatingSort>`, modelled as a
list maintained sorted by `setInsert`. -/
structure RoundResults where
  roundNum : Int
  playerStatistics : List PlayerStatistics
deriving DecidableEq, Repr

/-- Predicate picking out `visualizeEndGame` events in a trace. -/
def isEndGameEvent {β : Type} : Event β → Bool
  | Event.visualizeEndGame _ _ _ => true
  | _ => false

/-! ## Concrete instantiations used to exercise the theorems -/

/-- A trivial board with one ship per player on which every attack misses:
`executeAttack` always answers `NULL`. -/
def boardMiss : BattleBoard Unit where
  getPlayerAShipCount := fun _ => 1
  getPlayerBShipCount := fun _ => 1
  executeAttack := fun b _ => (b, none)

/-- A board (state: has player B's single ship been destroyed?) on which
the first attack sinks player B's only ship. -/
def boardSink : BattleBoard Bool where
  getPlayerAShipCount := fun _ => 1
  getPlayerBShipCount := fun b => if b then 0 else 1
  executeAttack := fun _ _ => (true, some 0)

/-- A strategy that always attacks cell `(1, 1)` (1-based). -/
def attackOnes : Nat → Int × Int := fun _ => (1, 1)

/-- A strategy that forfeits immediately. -/
def attackForfeitAlways : Nat → Int × Int := fun _ => FORFEIT

/-- The initial loop state of `startGame` on the `boardMiss` board. -/
def cexS0 : GameState Unit :=
  { board := ()
    currentPlayer := PlayerEnum.A
    isPlayerAForfeit := false
    isPlayerBForfeit := false
    attackCallsA := 0
    attackCallsB := 0 }

/-- State after iteration 1 (player A attacks `(1,1)` and misses). -/
def cexS1 : GameState Unit :=
  (runIteration boardMiss attackOnes attackForfeitAlways cexS0).1

/-- State after iteration 2 (player B forfeits). -/
def cexS2 : GameState Unit :=
  (runIteration boardMiss attackOnes attackForfeitAlways cexS1).1

/-- State after iteration 3 (player A attacks `(1,1)` again and misses). -/
def cexS3 : GameState Unit :=
  (runIteration boardMiss attackOnes attackForfeitAlways cexS2).1

/-- A statistics entry for player `alice` with rating 1. -/
def statAlice : PlayerStatistics :=
  { playerName := "alice"
    pointsFor := 0
    pointsAgainst := 0
    wins := 0
    loses := 0
    rating := 1 }

/-- A distinct statistics entry for player `bob`, also with rating 1. -/
def statBob : PlayerStatistics :=
  { playerName := "bob"
    pointsFor := 3
    pointsAgainst := 1
    wins := 1
    loses := 0
    rating := 1 }

/-- A `RoundResults` built by inserting `statAlice` and then `statBob`
into the rating-sorted set. -/
def roundTie : RoundResults :=
  { roundNum := 1
    playerStatistics := setInsert statBob (setInsert statAlice []) }

/-- Loop invariant for `startGame`: the active player has not forfeited,
except in the terminal situation where both players have forfeited. -/
def currentFlagOk {β : Type} (s : GameState β) : Prop :=
  playerForfeitFlag s.currentPlayer s = false ∨
    (s.isPlayerAForfeit = true ∧ s.isPlayerBForfeit = true)

/-- A `GameManager` with zeroed win counters. -/
def gmZero : GameManager :=
  { _playerAWins := 0, _playerBWins := 0 }

/-! ## Theorems -/

theorem mem_setInsert (x : PlayerStatistics) (l : List PlayerStatistics)
    (z : PlayerStatistics) (hz : z ∈ setInsert x l) : z = x ∨ z ∈ l := by
  induction l with
  | nil =>
    simp only [setInsert, List.mem_singleton] at hz
    exact Or.inl hz
  | cons y t ih =>
    by_cases h1 : PlayerStatisticsRatingSort x y = true
    · simp only [setInsert, if_pos h1, List.mem_cons] at hz
      simp only [List.mem_cons]
      tauto
    · by_cases h2 : PlayerStatisticsRatingSort y x = true
      · simp only [setInsert, h1, h2, if_neg, if_pos, Bool.false_eq_true,
          ite_false, ite_true, List.mem_cons] at hz
        simp only [List.mem_cons]
        rcases hz with hz | hz
        · tauto
        · rcases ih hz with h | h
          · exact Or.inl h
          · tauto
      · simp only [setInsert, h1, h2, Bool.false_eq_true, ite_false] at hz
        exact Or.inr hz

theorem setInsert_pairwise (x : PlayerStatistics) (l : List PlayerStatistics)
    (hs : l.Pairwise (fun a b => a.rating < b.rating)) :
    (setInsert x l).Pairwise (fun a b => a.rating < b.rating) := by
  induction l with
  | nil => simp [setInsert]
  | cons y t ih =>
    rcases List.pairwise_cons.mp hs with ⟨hy, ht⟩
    by_cases h1 : PlayerStatisticsRatingSort x y = true
    · have hxy : x.rating < y.rating := by
        simpa [PlayerStatisticsRatingSort] using h1
      simp only [setInsert, if_pos h1]
      refine List.pairwise_cons.mpr ⟨?_, hs⟩
      intro z hz
      rcases List.mem_cons.mp hz with rfl | hz
      · exact hxy
      · exact lt_trans hxy (hy z hz)
    · by_cases h2 : PlayerStatisticsRatingSort y x = true
      · have hyx : y.rating < x.rating := by
          simpa [PlayerStatisticsRatingSort] using h2
        simp only [setInsert, h1, h2, Bool.false_eq_true, ite_false, ite_true]
        refine List.pairwise_cons.mpr ⟨?_, ih ht⟩
        intro z hz
        rcases mem_setInsert x t z hz with rfl | hz
        · exact hyx
        · exact hy z hz
      · simp only [setInsert, h1, h2, Bool.false_eq_true, ite_false]
        exact hs

theorem setInsert_equal_rating (x : PlayerStatistics)
    (l : List PlayerStatistics)
    (hs : l.Pairwise (fun a b => a.rating < b.rating))
    (hex : ∃ y ∈ l, y.rating = x.rating) : setInsert x l = l := by
  induction l with
  | nil => rcases hex with ⟨y, hy, _⟩; cases hy
  | cons y t ih =>
    rcases List.pairwise_cons.mp hs with ⟨hy, ht⟩
    rcases hex with ⟨z, hz, hzr⟩
    rcases List.mem_cons.mp hz with rfl | hz
    · have h1 : ¬PlayerStatisticsRatingSort x z = true := by
        simp [PlayerStatisticsRatingSort, hzr]
      have h2 : ¬PlayerStatisticsRatingSort z x = true := by
        simp [PlayerStatisticsRatingSort, hzr]
      simp only [setInsert, h1, h2, Bool.false_eq_true, ite_false]
    · have hyz : y.rating < z.rating := hy z hz
      have hyx : y.rating < x.rating := by rw [← hzr]; exact hyz
      have h1 : ¬PlayerStatisticsRatingSort x y = true := by
        simp only [PlayerStatisticsRatingSort, decide_eq_true_eq]
        exact not_lt_of_gt hyx
      have h2 : PlayerStatisticsRatingSort y x = true := by
        simp [PlayerStatisticsRatingSort, hyx]
      simp only [setInsert, h1, h2, Bool.false_eq_true, ite_false, ite_true]
      rw [ih ht ⟨z, hz, hzr⟩]

/-- C1: `isGameOver` returns true iff both forfeit flags are set or either
player's ship count is zero; `isPlayerShipsLeft` reports whether the
player's ship count is strictly positive. -/
theorem isGameOver_iff_bothForfeit_or_no_ships {β : Type}
    (bm : BattleBoard β) (board : β) (fA fB : Bool)
    (hA : 0 ≤ bm.getPlayerAShipCount board)
    (hB : 0 ≤ bm.getPlayerBShipCount board) :
    ((isPlayerShipsLeft bm board PlayerEnum.A = true ↔
        0 < bm.getPlayerAShipCount board) ∧
      (isPlayerShipsLeft bm board PlayerEnum.B = true ↔
        0 < bm.getPlayerBShipCount board)) ∧
    (isGameOver bm board fA fB = true ↔
      (fA = true ∧ fB = true) ∨
        bm.getPlayerAShipCount board = 0 ∨
        bm.getPlayerBShipCount board = 0) := by
  refine ⟨⟨?_, ?_⟩, ?_⟩
  · simp [isPlayerShipsLeft]
  · simp [isPlayerShipsLeft]
  · simp only [isGameOver, isPlayerShipsLeft]
    cases fA <;> cases fB <;> simp <;> omega

theorem isGameOver_iff_witness :
    (0 : Int) ≤ boardMiss.getPlayerAShipCount () ∧
    (0 : Int) ≤ boardMiss.getPlayerBShipCount () ∧
    (isGameOver boardMiss () false false = true ↔
      (false = true ∧ false = true) ∨
        boardMiss.getPlayerAShipCount () = 0 ∨
        boardMiss.getPlayerBShipCount () = 0) :=
  ⟨by decide, by decide,
    (isGameOver_iff_bothForfeit_or_no_ships boardMiss () false false
      (by decide) (by decide)).2⟩

/-- C3: `switchPlayerTurns` follows the priority order. -/
theorem switchPlayerTurns_priority (c : PlayerEnum) (fA fB : Bool) :
    (c = PlayerEnum.A → fB = false →
      switchPlayerTurns c fA fB = PlayerEnum.B) ∧
    (¬(c = PlayerEnum.A ∧ fB = false) → fA = false →
      switchPlayerTurns c fA fB = PlayerEnum.A) ∧
    (¬(c = PlayerEnum.A ∧ fB = false) → fA = true →
      switchPlayerTurns c fA fB = PlayerEnum.B) ∧
    switchPlayerTurns PlayerEnum.A false true = PlayerEnum.A := by
  cases c <;> cases fA <;> cases fB <;> decide

theorem switchPlayerTurns_priority_witness :
    switchPlayerTurns PlayerEnum.A false true = PlayerEnum.A :=
  (switchPlayerTurns_priority PlayerEnum.A false true).2.1 (by decide) rfl

/-- C10: startGame leaves the win counters unchanged. -/
theorem startGame_preserves_win_counters {β : Type} (gm : GameManager)
    (bm : BattleBoard β) (board : β) (attackA attackB : Nat → Int × Int)
    (fuel : Nat) :
    ((startGame gm bm board attackA attackB fuel).1)._playerAWins =
        gm._playerAWins ∧
      ((startGame gm bm board attackA attackB fuel).1)._playerBWins =
        gm._playerBWins :=
  ⟨rfl, rfl⟩

/-- C4 counterexample: equal-rating entry is dropped, not retained. -/
theorem roundResults_equal_rating_dropped :
    statBob.rating = statAlice.rating ∧
    statBob.playerName ≠ statAlice.playerName ∧
    roundTie.playerStatistics = [statAlice] ∧
    statBob ∉ roundTie.playerStatistics := by decide

/-- C4 amended. -/
theorem roundResults_rating_order (rr : RoundResults)
    (x : PlayerStatistics)
    (hs : rr.playerStatistics.Pairwise (fun a b => a.rating < b.rating)) :
    (setInsert x rr.playerStatistics).Pairwise
        (fun a b => a.rating < b.rating) ∧
    (∀ y ∈ rr.playerStatistics, y.rating = x.rating →
      setInsert x rr.playerStatistics = rr.playerStatistics) :=
  ⟨setInsert_pairwise x rr.playerStatistics hs,
    fun y hy hyr =>
      setInsert_equal_rating x rr.playerStatistics hs ⟨y, hy, hyr⟩⟩

theorem roundResults_rating_order_witness :
    (setInsert statBob roundTie.playerStatistics).Pairwise
        (fun a b => a.rating < b.rating) ∧
    (∀ y ∈ roundTie.playerStatistics, y.rating = statBob.rating →
      setInsert statBob roundTie.playerStatistics =
        roundTie.playerStatistics) :=
  roundResults_rating_order roundTie statBob (by decide)

/-- C2 counterexample: in a reachable third iteration of the startGame
loop (player B forfeited in iteration 2), player A's miss does not pass
the turn to player B. -/
theorem miss_keeps_turn_counterexample :
    isGameOver boardMiss cexS0.board cexS0.isPlayerAForfeit
        cexS0.isPlayerBForfeit = false ∧
    isGameOver boardMiss cexS1.board cexS1.isPlayerAForfeit
        cexS1.isPlayerBForfeit = false ∧
    isGameOver boardMiss cexS2.board cexS2.isPlayerAForfeit
        cexS2.isPlayerBForfeit = false ∧
    cexS2.currentPlayer = PlayerEnum.A ∧
    cexS2.isPlayerBForfeit = true ∧
    (runIteration boardMiss attackOnes attackForfeitAlways cexS2).2 =
      [Event.attackCall PlayerEnum.A false true,
       Event.boardAttack 0 0,
       Event.notifyOnAttackResult PlayerEnum.A 0 0 0 AttackResult.Miss,
       Event.notifyOnAttackResult PlayerEnum.B 0 0 0 AttackResult.Miss,
       Event.visualizeAttackResults 0 0 AttackResult.Miss] ∧
    cexS3.currentPlayer = PlayerEnum.A := by decide

/-- C2 amended: hit/sink keep the turn; miss passes the turn through
`switchPlayerTurns` on the current flags, and a forfeit through
`switchPlayerTurns` on the updated flags; in both cases the turn goes to
the other player provided that player has not forfeited. -/
theorem turn_change_rule {β : Type} (bm : BattleBoard β)
    (attackA attackB : Nat → Int × Int) (s : GameState β) :
    (currentAttack attackA attackB s ≠ FORFEIT →
      ∀ lifeLeft,
        (bm.executeAttack s.board
            ((currentAttack attackA attackB s).1 - 1,
              (currentAttack attackA attackB s).2 - 1)).2 = some lifeLeft →
        (runIteration bm attackA attackB s).1.currentPlayer =
          s.currentPlayer) ∧
    (currentAttack attackA attackB s ≠ FORFEIT →
      (bm.executeAttack s.board
          ((currentAttack attackA attackB s).1 - 1,
            (currentAttack attackA attackB s).2 - 1)).2 = none →
      (runIteration bm attackA attackB s).1.currentPlayer =
        switchPlayerTurns s.currentPlayer s.isPlayerAForfeit
          s.isPlayerBForfeit) ∧
    (currentAttack attackA attackB s ≠ FORFEIT →
      (bm.executeAttack s.board
          ((currentAttack attackA attackB s).1 - 1,
            (currentAttack attackA attackB s).2 - 1)).2 = none →
      playerForfeitFlag (otherPlayer s.currentPlayer) s = false →
      (runIteration bm attackA attackB s).1.currentPlayer =
        otherPlayer s.currentPlayer) ∧
    (currentAttack attackA attackB s = FORFEIT →
      playerForfeitFlag (otherPlayer s.currentPlayer) s = false →
      (runIteration bm attackA attackB s).1.currentPlayer =
        otherPlayer s.currentPlayer) := by
  refine ⟨?_, ?_, ?_, ?_⟩
  · intro hnf lifeLeft hsome
    simp only [runIteration, if_neg hnf]
    simp [hsome]
  · intro hnf hnone
    simp only [runIteration, if_neg hnf]
    simp [hnone]
  · intro hnf hnone hother
    simp only [runIteration, if_neg hnf]
    simp only [hnone]
    cases hc : s.currentPlayer <;>
      simp_all [playerForfeitFlag, otherPlayer, switchPlayerTurns]
  · intro hforf hother
    simp only [runIteration, if_pos hforf]
    cases hc : s.currentPlayer <;>
      simp_all [playerForfeitFlag, otherPlayer, switchPlayerTurns]

theorem turn_change_rule_witness :
    (runIteration boardMiss attackOnes attackForfeitAlways
        cexS0).1.currentPlayer = otherPlayer cexS0.currentPlayer :=
  (turn_change_rule boardMiss attackOnes attackForfeitAlways cexS0).2.2.1
    (by decide) (by decide) (by decide)

/-- C5: for a non-forfeit target the 1-based coordinates are decremented
before the board attack; `(1,1)` reaches the board as `(0,0)`. -/
theorem attack_coordinates_normalized {β : Type} (bm : BattleBoard β)
    (attackA attackB : Nat → Int × Int) (s : GameState β)
    (hnf : currentAttack attackA attackB s ≠ FORFEIT) :
    (Event.boardAttack ((currentAttack attackA attackB s).1 - 1)
        ((currentAttack attackA attackB s).2 - 1) ∈
      (runIteration bm attackA attackB s).2) ∧
    ((runIteration bm attackA attackB s).1.board =
      (bm.executeAttack s.board
        ((currentAttack attackA attackB s).1 - 1,
          (currentAttack attackA attackB s).2 - 1)).1) ∧
    (currentAttack attackA attackB s = (1, 1) →
      Event.boardAttack 0 0 ∈ (runIteration bm attackA attackB s).2) := by
  have h1 : Event.boardAttack ((currentAttack attackA attackB s).1 - 1)
      ((currentAttack attackA attackB s).2 - 1) ∈
        (runIteration bm attackA attackB s).2 := by
    simp only [runIteration, if_neg hnf]
    simp
  refine ⟨h1, ?_, ?_⟩
  · simp only [runIteration, if_neg hnf]
  · intro h11
    rw [h11] at h1
    simpa using h1

theorem attack_coordinates_normalized_witness :
    Event.boardAttack 0 0 ∈
      (runIteration boardMiss attackOnes attackForfeitAlways cexS0).2 :=
  (attack_coordinates_normalized boardMiss attackOnes attackForfeitAlways
      cexS0 (by decide)).2.2 (by decide)

/-- C6: every resolved attack produces exactly the notifications to player
A, player B and the visualizer, all with the same normalized coordinates
and outcome, and the attacker id is 0 for A and 1 for B. -/
theorem attack_notifications {β : Type} (bm : BattleBoard β)
    (attackA attackB : Nat → Int × Int) (s : GameState β)
    (hnf : currentAttack attackA attackB s ≠ FORFEIT) :
    ((runIteration bm attackA attackB s).2 =
      [Event.attackCall s.currentPlayer s.isPlayerAForfeit
          s.isPlayerBForfeit,
        Event.boardAttack ((currentAttack attackA attackB s).1 - 1)
          ((currentAttack attackA attackB s).2 - 1),
        Event.notifyOnAttackResult PlayerEnum.A
          (if s.currentPlayer = PlayerEnum.B then 1 else 0)
          ((currentAttack attackA attackB s).1 - 1)
          ((currentAttack attackA attackB s).2 - 1)
          (classifyAttack (bm.executeAttack s.board
            ((currentAttack attackA attackB s).1 - 1,
              (currentAttack attackA attackB s).2 - 1)).2),
        Event.notifyOnAttackResult PlayerEnum.B
          (if s.currentPlayer = PlayerEnum.B then 1 else 0)
          ((currentAttack attackA attackB s).1 - 1)
          ((currentAttack attackA attackB s).2 - 1)
          (classifyAttack (bm.executeAttack s.board
            ((currentAttack attackA attackB s).1 - 1,
              (currentAttack attackA attackB s).2 - 1)).2),
        Event.visualizeAttackResults
          ((currentAttack attackA attackB s).1 - 1)
          ((currentAttack attackA attackB s).2 - 1)
          (classifyAttack (bm.executeAttack s.board
            ((currentAttack attackA attackB s).1 - 1,
              (currentAttack attackA attackB s).2 - 1)).2)]) ∧
    (s.currentPlayer = PlayerEnum.A →
      (if s.currentPlayer = PlayerEnum.B then (1 : Int) else 0) = 0) ∧
    (s.currentPlayer = PlayerEnum.B →
      (if s.currentPlayer = PlayerEnum.B then (1 : Int) else 0) = 1) := by
  refine ⟨?_, ?_, ?_⟩
  · simp only [runIteration, if_neg hnf]
  · intro hA; simp [hA]
  · intro hB; simp [hB]

theorem attack_notifications_witness :
    (runIteration boardMiss attackOnes attackForfeitAlways cexS0).2 =
      [Event.attackCall cexS0.currentPlayer cexS0.isPlayerAForfeit
          cexS0.isPlayerBForfeit,
        Event.boardAttack
          ((currentAttack attackOnes attackForfeitAlways cexS0).1 - 1)
          ((currentAttack attackOnes attackForfeitAlways cexS0).2 - 1),
        Event.notifyOnAttackResult PlayerEnum.A
          (if cexS0.currentPlayer = PlayerEnum.B then 1 else 0)
          ((currentAttack attackOnes attackForfeitAlways cexS0).1 - 1)
          ((currentAttack attackOnes attackForfeitAlways cexS0).2 - 1)
          (classifyAttack (boardMiss.executeAttack cexS0.board
            ((currentAttack attackOnes attackForfeitAlways cexS0).1 - 1,
              (currentAttack attackOnes attackForfeitAlways cexS0).2 -
                1)).2),
        Event.notifyOnAttackResult PlayerEnum.B
          (if cexS0.currentPlayer = PlayerEnum.B then 1 else 0)
          ((currentAttack attackOnes attackForfeitAlways cexS0).1 - 1)
          ((currentAttack attackOnes attackForfeitAlways cexS0).2 - 1)
          (classifyAttack (boardMiss.executeAttack cexS0.board
            ((currentAttack attackOnes attackForfeitAlways cexS0).1 - 1,
              (currentAttack attackOnes attackForfeitAlways cexS0).2 -
                1)).2),
        Event.visualizeAttackResults
          ((currentAttack attackOnes attackForfeitAlways cexS0).1 - 1)
          ((currentAttack attackOnes attackForfeitAlways cexS0).2 - 1)
          (classifyAttack (boardMiss.executeAttack cexS0.board
            ((currentAttack attackOnes attackForfeitAlways cexS0).1 - 1,
              (currentAttack attackOnes attackForfeitAlways cexS0).2 -
                1)).2)] :=
  (attack_notifications boardMiss attackOnes attackForfeitAlways cexS0
    (by decide)).1

/-- C8: a NULL board reply is classified as a miss; the notifications
carry `AttackResult.Miss`, the turn switches, and the step is total. -/
theorem null_reply_is_miss {β : Type} (bm : BattleBoard β)
    (attackA attackB : Nat → Int × Int) (s : GameState β)
    (hnf : currentAttack attackA attackB s ≠ FORFEIT)
    (hnone : (bm.executeAttack s.board
        ((currentAttack attackA attackB s).1 - 1,
          (currentAttack attackA attackB s).2 - 1)).2 = none) :
    classifyAttack (bm.executeAttack s.board
        ((currentAttack attackA attackB s).1 - 1,
          (currentAttack attackA attackB s).2 - 1)).2 =
      AttackResult.Miss ∧
    (Event.notifyOnAttackResult PlayerEnum.A
        (if s.currentPlayer = PlayerEnum.B then 1 else 0)
        ((currentAttack attackA attackB s).1 - 1)
        ((currentAttack attackA attackB s).2 - 1) AttackResult.Miss ∈
      (runIteration bm attackA attackB s).2) ∧
    (Event.notifyOnAttackResult PlayerEnum.B
        (if s.currentPlayer = PlayerEnum.B then 1 else 0)
        ((currentAttack attackA attackB s).1 - 1)
        ((currentAttack attackA attackB s).2 - 1) AttackResult.Miss ∈
      (runIteration bm attackA attackB s).2) ∧
    (Event.visualizeAttackResults
        ((currentAttack attackA attackB s).1 - 1)
        ((currentAttack attackA attackB s).2 - 1) AttackResult.Miss ∈
      (runIteration bm attackA attackB s).2) ∧
    (runIteration bm attackA attackB s).1.currentPlayer =
      switchPlayerTurns s.currentPlayer s.isPlayerAForfeit
        s.isPlayerBForfeit := by
  refine ⟨by simp [hnone, classifyAttack], ?_, ?_, ?_, ?_⟩ <;>
    · simp only [runIteration, if_neg hnf]
      simp [hnone, classifyAttack]

theorem null_reply_is_miss_witness :
    Event.visualizeAttackResults
        ((currentAttack attackOnes attackForfeitAlways cexS0).1 - 1)
        ((currentAttack attackOnes attackForfeitAlways cexS0).2 - 1)
        AttackResult.Miss ∈
      (runIteration boardMiss attackOnes attackForfeitAlways cexS0).2 :=
  (null_reply_is_miss boardMiss attackOnes attackForfeitAlways cexS0
    (by decide) (by decide)).2.2.2.1

theorem runIteration_flags_mono {β : Type} (bm : BattleBoard β)
    (attackA attackB : Nat → Int × Int) (s : GameState β) :
    (s.isPlayerAForfeit = true →
      (runIteration bm attackA attackB s).1.isPlayerAForfeit = true) ∧
    (s.isPlayerBForfeit = true →
      (runIteration bm attackA attackB s).1.isPlayerBForfeit = true) := by
  by_cases hf : currentAttack attackA attackB s = FORFEIT
  · simp only [runIteration, if_pos hf]
    cases hc : s.currentPlayer <;> simp
  · simp only [runIteration, if_neg hf]
    cases hc : s.currentPlayer <;> simp

theorem runIteration_inv {β : Type} (bm : BattleBoard β)
    (attackA attackB : Nat → Int × Int) (s : GameState β)
    (h : currentFlagOk s) :
    currentFlagOk (runIteration bm attackA attackB s).1 := by
  unfold currentFlagOk playerForfeitFlag at h ⊢
  by_cases hf : currentAttack attackA attackB s = FORFEIT
  · simp only [runIteration, if_pos hf]
    cases hc : s.currentPlayer <;>
      cases hA : s.isPlayerAForfeit <;>
      cases hB : s.isPlayerBForfeit <;>
      simp_all [switchPlayerTurns]
  · simp only [runIteration, if_neg hf]
    cases hr : (bm.executeAttack s.board
        ((currentAttack attackA attackB s).1 - 1,
          (currentAttack attackA attackB s).2 - 1)).2 <;>
      cases hc : s.currentPlayer <;>
      cases hA : s.isPlayerAForfeit <;>
      cases hB : s.isPlayerBForfeit <;>
      simp_all [switchPlayerTurns]

theorem attackCall_mem_runIteration {β : Type} (bm : BattleBoard β)
    (attackA attackB : Nat → Int × Int) (s : GameState β)
    (p : PlayerEnum) (a b : Bool)
    (hmem : Event.attackCall p a b ∈ (runIteration bm attackA attackB s).2) :
    p = s.currentPlayer ∧ a = s.isPlayerAForfeit ∧ b = s.isPlayerBForfeit := by
  by_cases hf : currentAttack attackA attackB s = FORFEIT
  · simp only [runIteration, if_pos hf, List.mem_singleton] at hmem
    simp only [Event.attackCall.injEq] at hmem
    exact hmem
  · simp only [runIteration, if_neg hf, List.mem_cons,
      List.not_mem_nil, or_false] at hmem
    simp only [Event.attackCall.injEq, reduceCtorEq, or_false] at hmem
    exact hmem

theorem runIteration_no_endGame {β : Type} (bm : BattleBoard β)
    (attackA attackB : Nat → Int × Int) (s : GameState β) :
    ∀ e ∈ (runIteration bm attackA attackB s).2, isEndGameEvent e = false := by
  by_cases hf : currentAttack attackA attackB s = FORFEIT
  · simp [runIteration, if_pos hf, isEndGameEvent]
  · simp [runIteration, if_neg hf, isEndGameEvent]

theorem bothForfeit_gameOver {β : Type} (bm : BattleBoard β) (board : β) :
    isGameOver bm board true true = true := by
  simp [isGameOver]

theorem runLoop_flags_mono {β : Type} (bm : BattleBoard β)
    (attackA attackB : Nat → Int × Int) :
    ∀ (fuel : Nat) (s : GameState β),
      (s.isPlayerAForfeit = true →
        (runLoop bm attackA attackB fuel s).1.isPlayerAForfeit = true) ∧
      (s.isPlayerBForfeit = true →
        (runLoop bm attackA attackB fuel s).1.isPlayerBForfeit = true) := by
  intro fuel
  induction fuel with
  | zero =>
    intro s
    by_cases hg : isGameOver bm s.board s.isPlayerAForfeit
        s.isPlayerBForfeit = true
    · simp [runLoop, hg]
    · simp [runLoop, hg]
  | succ n ih =>
    intro s
    by_cases hg : isGameOver bm s.board s.isPlayerAForfeit
        s.isPlayerBForfeit = true
    · simp [runLoop, hg]
    · have h1 := runIteration_flags_mono bm attackA attackB s
      have h2 := ih (runIteration bm attackA attackB s).1
      constructor
      · intro hA
        simp only [runLoop, hg, if_false, Bool.false_eq_true, ite_false]
        exact h2.1 (h1.1 hA)
      · intro hB
        simp only [runLoop, hg, if_false, Bool.false_eq_true, ite_false]
        exact h2.2 (h1.2 hB)

theorem runLoop_attackCall_flags {β : Type} (bm : BattleBoard β)
    (attackA attackB : Nat → Int × Int) :
    ∀ (fuel : Nat) (s : GameState β), currentFlagOk s →
      ∀ p a b,
        Event.attackCall p a b ∈ (runLoop bm attackA attackB fuel s).2.1 →
        (p = PlayerEnum.A → a = false) ∧ (p = PlayerEnum.B → b = false) := by
  intro fuel
  induction fuel with
  | zero =>
    intro s hok p a b hmem
    by_cases hg : isGameOver bm s.board s.isPlayerAForfeit
        s.isPlayerBForfeit = true
    · simp [runLoop, hg] at hmem
    · simp [runLoop, hg] at hmem
  | succ n ih =>
    intro s hok p a b hmem
    by_cases hg : isGameOver bm s.board s.isPlayerAForfeit
        s.isPlayerBForfeit = true
    · simp [runLoop, hg] at hmem
    · simp only [runLoop, hg, if_false, Bool.false_eq_true, ite_false,
        List.mem_append] at hmem
      rcases hmem with hm | hm
      · rcases attackCall_mem_runIteration bm attackA attackB s p a b hm
          with ⟨hp, ha, hb⟩
        subst hp; subst ha; subst hb
        rcases hok with hfl | ⟨hbA, hbB⟩
        · constructor
          · intro hA
            rw [hA] at hfl
            simpa [playerForfeitFlag] using hfl
          · intro hB
            rw [hB] at hfl
            simpa [playerForfeitFlag] using hfl
        · exact absurd (by simp [isGameOver, hbA, hbB]) hg
      · exact ih (runIteration bm attackA attackB s).1
          (runIteration_inv bm attackA attackB s hok) p a b hm

/-- C7: a forfeit flag, once set, stays set for the rest of the match, and
`attack()` is only ever invoked on a player whose forfeit flag is unset. -/
theorem forfeited_player_never_attacks_again {β : Type} (gm : GameManager)
    (bm : BattleBoard β) (board : β) (attackA attackB : Nat → Int × Int)
    (fuel : Nat) :
    (∀ s : GameState β,
      (s.isPlayerAForfeit = true →
        (runLoop bm attackA attackB fuel s).1.isPlayerAForfeit = true) ∧
      (s.isPlayerBForfeit = true →
        (runLoop bm attackA attackB fuel s).1.isPlayerBForfeit = true)) ∧
    (∀ p a b,
      Event.attackCall p a b ∈
        (startGame gm bm board attackA attackB fuel).2.2.1 →
      (p = PlayerEnum.A → a = false) ∧ (p = PlayerEnum.B → b = false)) := by
  constructor
  · intro s
    exact runLoop_flags_mono bm attackA attackB fuel s
  · intro p a b hmem
    simp only [startGame, List.mem_cons] at hmem
    rcases hmem with h | h | h
    · exact absurd h (by simp)
    · exact absurd h (by simp)
    · refine runLoop_attackCall_flags bm attackA attackB fuel _ ?_ p a b h
      left
      simp [playerForfeitFlag]

theorem forfeited_player_never_attacks_again_witness :
    (runLoop boardMiss attackOnes attackForfeitAlways 3
        cexS2).1.isPlayerBForfeit = true ∧
    ((PlayerEnum.B = PlayerEnum.A → false = false) ∧
      (PlayerEnum.B = PlayerEnum.B → false = false)) :=
  ⟨((forfeited_player_never_attacks_again gmZero boardMiss ()
        attackOnes attackForfeitAlways 3).1 cexS2).2 (by decide),
    (forfeited_player_never_attacks_again gmZero boardMiss ()
        attackOnes attackForfeitAlways 3).2 PlayerEnum.B false false
      (by decide)⟩

theorem runLoop_endGame_spec {β : Type} (bm : BattleBoard β)
    (attackA attackB : Nat → Int × Int) :
    ∀ (fuel : Nat) (s : GameState β),
      ((runLoop bm attackA attackB fuel s).2.2 = true →
        (runLoop bm attackA attackB fuel s).2.1.getLast? =
          some (Event.visualizeEndGame
            (runLoop bm attackA attackB fuel s).1.board
            (runLoop bm attackA attackB fuel s).1.isPlayerAForfeit
            (runLoop bm attackA attackB fuel s).1.isPlayerBForfeit) ∧
        (runLoop bm attackA attackB fuel s).2.1.countP isEndGameEvent = 1 ∧
        isGameOver bm (runLoop bm attackA attackB fuel s).1.board
          (runLoop bm attackA attackB fuel s).1.isPlayerAForfeit
          (runLoop bm attackA attackB fuel s).1.isPlayerBForfeit = true) ∧
      ((runLoop bm attackA attackB fuel s).2.2 = false →
        (runLoop bm attackA attackB fuel s).2.1.countP isEndGameEvent = 0) := by
  intro fuel
  induction fuel with
  | zero =>
    intro s
    by_cases hg : isGameOver bm s.board s.isPlayerAForfeit
        s.isPlayerBForfeit = true
    · constructor
      · intro _
        simp [runLoop, hg, isEndGameEvent]
      · intro hdone
        simp [runLoop, hg] at hdone
    · constructor
      · intro hdone
        simp [runLoop, hg] at hdone
      · intro _
        simp [runLoop, hg]
  | succ n ih =>
    intro s
    by_cases hg : isGameOver bm s.board s.isPlayerAForfeit
        s.isPlayerBForfeit = true
    · constructor
      · intro _
        simp [runLoop, hg, isEndGameEvent]
      · intro hdone
        simp [runLoop, hg] at hdone
    · have hstep0 : (runIteration bm attackA attackB s).2.countP
          isEndGameEvent = 0 := by
        refine List.countP_eq_zero.mpr ?_
        intro e he
        simpa using runIteration_no_endGame bm attackA attackB s e he
      have ihs := ih (runIteration bm attackA attackB s).1
      constructor
      · intro hdone
        simp only [runLoop, hg, if_false, Bool.false_eq_true, ite_false]
          at hdone ⊢
        rcases ihs.1 hdone with ⟨hlast, hcount, hover⟩
        have hne : (runLoop bm attackA attackB n
            (runIteration bm attackA attackB s).1).2.1 ≠ [] := by
          intro hnil
          rw [hnil] at hcount
          simp at hcount
        refine ⟨?_, ?_, hover⟩
        · rw [List.getLast?_append_of_ne_nil _ hne]
          exact hlast
        · rw [List.countP_append, hstep0, hcount]
      · intro hdone
        simp only [runLoop, hg, if_false, Bool.false_eq_true, ite_false]
          at hdone ⊢
        rw [List.countP_append, hstep0, ihs.2 hdone]

/-- C9: when a run of `startGame` reaches the game-over condition,
`visualizeEndGame` is emitted exactly once, as the last event, carrying
the final board and both final forfeit flags, and the game-over condition
holds at that point; a run cut off mid-match emits no `visualizeEndGame`
at all. -/
theorem visualizeEndGame_exactly_once {β : Type} (gm : GameManager)
    (bm : BattleBoard β) (board : β) (attackA attackB : Nat → Int × Int)
    (fuel : Nat) :
    ((startGame gm bm board attackA attackB fuel).2.2.2 = true →
      (startGame gm bm board attackA attackB fuel).2.2.1.countP
          isEndGameEvent = 1 ∧
      (startGame gm bm board attackA attackB fuel).2.2.1.getLast? =
        some (Event.visualizeEndGame
          (startGame gm bm board attackA attackB fuel).2.1.board
          (startGame gm bm board attackA attackB fuel).2.1.isPlayerAForfeit
          (startGame gm bm board attackA attackB
            fuel).2.1.isPlayerBForfeit) ∧
      isGameOver bm (startGame gm bm board attackA attackB fuel).2.1.board
        (startGame gm bm board attackA attackB fuel).2.1.isPlayerAForfeit
        (startGame gm bm board attackA attackB fuel).2.1.isPlayerBForfeit =
        true) ∧
    ((startGame gm bm board attackA attackB fuel).2.2.2 = false →
      (startGame gm bm board attackA attackB fuel).2.2.1.countP
        isEndGameEvent = 0) := by
  have hspec := runLoop_endGame_spec bm attackA attackB fuel
    { board := board
      currentPlayer := PlayerEnum.A
      isPlayerAForfeit := false
      isPlayerBForfeit := false
      attackCallsA := 0
      attackCallsB := 0 }
  constructor
  · intro hdone
    simp only [startGame] at hdone ⊢
    rcases hspec.1 hdone with ⟨hlast, hcount, hover⟩
    have hne : (runLoop bm attackA attackB fuel
        { board := board
          currentPlayer := PlayerEnum.A
          isPlayerAForfeit := false
          isPlayerBForfeit := false
          attackCallsA := 0
          attackCallsB := 0 }).2.1 ≠ [] := by
      intro hnil
      rw [hnil] at hcount
      simp at hcount
    refine ⟨?_, ?_, hover⟩
    · simp [List.countP_cons, isEndGameEvent, hcount]
    · show (Event.setBoard PlayerEnum.A :: Event.setBoard PlayerEnum.B ::
          _).getLast? = _
      rw [show (Event.setBoard PlayerEnum.A (β := β) ::
          Event.setBoard PlayerEnum.B :: (runLoop bm attackA attackB fuel
            { board := board
              currentPlayer := PlayerEnum.A
              isPlayerAForfeit := false
              isPlayerBForfeit := false
              attackCallsA := 0
              attackCallsB := 0 }).2.1) =
          [Event.setBoard PlayerEnum.A, Event.setBoard PlayerEnum.B] ++
            (runLoop bm attackA attackB fuel
              { board := board
                currentPlayer := PlayerEnum.A
                isPlayerAForfeit := false
                isPlayerBForfeit := false
                attackCallsA := 0
                attackCallsB := 0 }).2.1 from rfl]
      rw [List.getLast?_append_of_ne_nil _ hne]
      exact hlast
  · intro hdone
    simp only [startGame] at hdone ⊢
    simp [List.countP_cons, isEndGameEvent, hspec.2 hdone]

theorem visualizeEndGame_exactly_once_witness :
    (startGame gmZero boardSink false attackOnes attackOnes 1).2.2.1.countP
        isEndGameEvent = 1 ∧
    (startGame gmZero boardSink false attackOnes attackOnes
        1).2.2.1.getLast? =
      some (Event.visualizeEndGame
        (startGame gmZero boardSink false attackOnes attackOnes 1).2.1.board
        (startGame gmZero boardSink false attackOnes attackOnes
          1).2.1.isPlayerAForfeit
        (startGame gmZero boardSink false attackOnes attackOnes
          1).2.1.isPlayerBForfeit) ∧
    isGameOver boardSink
      (startGame gmZero boardSink false attackOnes attackOnes 1).2.1.board
      (startGame gmZero boardSink false attackOnes attackOnes
        1).2.1.isPlayerAForfeit
      (startGame gmZero boardSink false attackOnes attackOnes
        1).2.1.isPlayerBForfeit = true :=
  (visualizeEndGame_exactly_once gmZero boardSink false attackOnes
    attackOnes 1).1 (by decide)

end Battleship
